import Mathlib

/-!
Verification of the easyjsonpy configuration/language registries.

The Python code is shallowly embedded: JSON documents become the inductive
`Json`; Python `dict`s become association lists with unique keys kept in
insertion order (`lookupA`, `insertA`, `eraseA` mirror `d.get`, `d[k] = v`,
`del d[k]` / `pop`); the file system seen by a call is a map from path to
`none` (file exists but is not valid JSON) or `some j` (parses to `j`);
a missing path models a nonexistent file.  Functions that may raise return
an `Option Err × State` pair (the error raised, if any, together with the
state of the singleton as Python leaves it) or an `Except` when they do not
mutate state.  JSON numbers are modelled as `Int`: no claim depends on
numeric values, only on structural traversal.
-/

/-- A JSON document tree, as produced by `json.load`. -/
inductive Json where
  | null : Json
  | bool (b : Bool) : Json
  | num (n : Int) : Json
  | str (s : String) : Json
  | arr (elems : List Json) : Json
  | obj (fields : List (String × Json)) : Json
deriving Repr

/-- Lookup in an association list modelling a Python dict: `d.get(k)`. -/
def lookupA {α : Type} : List (String × α) → String → Option α
  | [], _ => none
  | (k, v) :: rest, key => if k = key then some v else lookupA rest key

/-- Update/insert in an association list modelling `d[k] = v`: an existing
key keeps its position, a new key is appended (Python insertion order). -/
def insertA {α : Type} : List (String × α) → String → α → List (String × α)
  | [], key, v => [(key, v)]
  | (k, w) :: rest, key, v =>
      if k = key then (k, v) :: rest else (k, w) :: insertA rest key v

/-- Deletion from an association list modelling `del d[k]` / `d.pop(k, None)`. -/
def eraseA {α : Type} : List (String × α) → String → List (String × α)
  | [], _ => []
  | (k, w) :: rest, key =>
      if k = key then rest else (k, w) :: eraseA rest key

/-- Helper for `pySplitDot`: accumulates the current segment (reversed). -/
def splitGo : List Char → List Char → List String
  | [], acc => [String.mk acc.reverse]
  | c :: rest, acc =>
      if c = '.' then String.mk acc.reverse :: splitGo rest [] else splitGo rest (c :: acc)

/-- Python `key.split(".")`: splits on every dot, keeping empty segments
(so the result is always nonempty). -/
def pySplitDot (s : String) : List String := splitGo s.data []

/-- The dotted-path fold of `get_config` / `get_message`:
`reduce(lambda d, k: d.get(k, key) if isinstance(d, dict) else key, keys, doc)`. -/
def resolveList (doc : Json) (segs : List String) (key : String) : Json :=
  segs.foldl
    (fun d k =>
      match d with
      | Json.obj fields => (lookupA fields k).getD (Json.str key)
      | _ => Json.str key)
    doc

/-- Dotted-path resolution of a full key string against a document. -/
def resolve (doc : Json) (key : String) : Json :=
  resolveList doc (pySplitDot key) key

/-- Spec-side notion of "the full dotted path exists": descend through
objects segment by segment, `none` when a segment is missing or a non-object
is reached before the end. -/
def pathLookup : Json → List String → Option Json
  | d, [] => some d
  | Json.obj fields, k :: rest =>
      match lookupA fields k with
      | some v => pathLookup v rest
      | none => none
  | _, _ :: _ => none

theorem splitGo_ne_nil : ∀ (cs acc : List Char), splitGo cs acc ≠ [] := by
  intro cs
  induction cs with
  | nil => intro acc; simp [splitGo]
  | cons c rest ih =>
      intro acc
      by_cases h : c = '.'
      · simp [splitGo, h]
      · simpa [splitGo, h] using ih (c :: acc)

theorem pySplitDot_ne_nil (s : String) : pySplitDot s ≠ [] :=
  splitGo_ne_nil s.data []

theorem lookupA_insertA_self {α : Type} (l : List (String × α)) (k : String) (v : α) :
    lookupA (insertA l k v) k = some v := by
  induction l with
  | nil => simp [insertA, lookupA]
  | cons p rest ih =>
      obtain ⟨k1, w⟩ := p
      by_cases h : k1 = k
      · simp [insertA, h, lookupA]
      · simp [insertA, h, lookupA, ih]

theorem lookupA_insertA_ne {α : Type} (l : List (String × α)) (k m : String) (v : α)
    (h : m ≠ k) : lookupA (insertA l k v) m = lookupA l m := by
  have hkm : k ≠ m := Ne.symm h
  induction l with
  | nil => simp [insertA, lookupA, hkm]
  | cons p rest ih =>
      obtain ⟨k1, w⟩ := p
      by_cases h1 : k1 = k
      · subst h1
        simp [insertA, lookupA, hkm]
      · by_cases h2 : k1 = m
        · simp [insertA, h1, lookupA, h2, h]
        · simp [insertA, h1, lookupA, h2, ih]

theorem lookupA_eraseA_ne {α : Type} (l : List (String × α)) (k m : String)
    (h : m ≠ k) : lookupA (eraseA l k) m = lookupA l m := by
  have hkm : k ≠ m := Ne.symm h
  induction l with
  | nil => simp [eraseA]
  | cons p rest ih =>
      obtain ⟨k1, w⟩ := p
      by_cases h1 : k1 = k
      · subst h1
        simp [eraseA, lookupA, hkm]
      · by_cases h2 : k1 = m
        · simp [eraseA, h1, lookupA, h2, h]
        · simp [eraseA, h1, lookupA, h2, ih]

theorem lookupA_not_mem {α : Type} (l : List (String × α)) (k : String)
    (h : k ∉ l.map Prod.fst) : lookupA l k = none := by
  induction l with
  | nil => simp [lookupA]
  | cons p rest ih =>
      obtain ⟨k1, w⟩ := p
      simp only [List.map_cons, List.mem_cons] at h
      push_neg at h
      simp [lookupA, Ne.symm h.1, ih h.2]

theorem lookupA_eraseA_self {α : Type} (l : List (String × α)) (k : String)
    (hnodup : (l.map Prod.fst).Nodup) : lookupA (eraseA l k) k = none := by
  induction l with
  | nil => simp [eraseA, lookupA]
  | cons p rest ih =>
      obtain ⟨k1, w⟩ := p
      simp only [List.map_cons, List.nodup_cons] at hnodup
      by_cases h1 : k1 = k
      · subst h1
        simp only [eraseA, if_pos rfl]
        exact lookupA_not_mem rest k1 hnodup.1
      · simp [eraseA, h1, lookupA, ih hnodup.2]

theorem lookupA_eraseA_isSome {α : Type} (l : List (String × α)) (k m : String)
    (h : (lookupA (eraseA l k) m).isSome = true) : (lookupA l m).isSome = true := by
  induction l with
  | nil => simpa [eraseA] using h
  | cons p rest ih =>
      obtain ⟨k1, w⟩ := p
      by_cases h1 : k1 = k
      · subst h1
        simp only [eraseA, if_pos rfl] at h
        by_cases h2 : k1 = m
        · simp [lookupA, h2]
        · simpa [lookupA, h2] using h
      · by_cases h2 : k1 = m
        · simp [lookupA, h2]
        · simp only [eraseA, if_neg h1, lookupA, if_neg h2] at h ⊢
          exact ih h

theorem eraseA_of_absent {α : Type} (l : List (String × α)) (k : String)
    (h : lookupA l k = none) : eraseA l k = l := by
  induction l with
  | nil => simp [eraseA]
  | cons p rest ih =>
      obtain ⟨k1, w⟩ := p
      by_cases h1 : k1 = k
      · simp [lookupA, h1] at h
      · simp only [lookupA, if_neg h1] at h
        simp [eraseA, h1, ih h]

theorem resolveList_str (segs : List String) (key s : String) :
    resolveList (Json.str s) segs key = Json.str s ∨
    resolveList (Json.str s) segs key = Json.str key := by
  induction segs with
  | nil => exact Or.inl rfl
  | cons k rest ih =>
      right
      show resolveList (Json.str key) rest key = Json.str key
      clear ih
      induction rest with
      | nil => rfl
      | cons k2 rest2 ih2 => exact ih2

theorem resolveList_str_self (segs : List String) (key : String) :
    resolveList (Json.str key) segs key = Json.str key := by
  induction segs with
  | nil => rfl
  | cons k rest ih => exact ih

theorem resolveList_of_pathLookup_none (segs : List String) (doc : Json) (key : String)
    (h : pathLookup doc segs = none) : resolveList doc segs key = Json.str key := by
  induction segs generalizing doc with
  | nil => simp [pathLookup] at h
  | cons k rest ih =>
      cases doc with
      | obj fields =>
          cases hf : lookupA fields k with
          | some v =>
              have hv : pathLookup v rest = none := by
                simpa [pathLookup, hf] using h
              have : resolveList (Json.obj fields) (k :: rest) key = resolveList v rest key := by
                simp [resolveList, List.foldl_cons, hf]
              rw [this]
              exact ih v hv
          | none =>
              have : resolveList (Json.obj fields) (k :: rest) key
                  = resolveList (Json.str key) rest key := by
                simp [resolveList, List.foldl_cons, hf]
              rw [this]
              exact resolveList_str_self rest key
      | null =>
          show resolveList (Json.str key) rest key = Json.str key
          exact resolveList_str_self rest key
      | bool b =>
          show resolveList (Json.str key) rest key = Json.str key
          exact resolveList_str_self rest key
      | num n =>
          show resolveList (Json.str key) rest key = Json.str key
          exact resolveList_str_self rest key
      | str s =>
          show resolveList (Json.str key) rest key = Json.str key
          exact resolveList_str_self rest key
      | arr elems =>
          show resolveList (Json.str key) rest key = Json.str key
          exact resolveList_str_self rest key

theorem resolveList_of_pathLookup_some (segs : List String) (doc v : Json) (key : String)
    (h : pathLookup doc segs = some v) : resolveList doc segs key = v := by
  induction segs generalizing doc with
  | nil =>
      simp only [pathLookup, Option.some.injEq] at h
      simpa [resolveList] using h
  | cons k rest ih =>
      cases doc with
      | obj fields =>
          cases hf : lookupA fields k with
          | some w =>
              have hv : pathLookup w rest = some v := by
                simpa [pathLookup, hf] using h
              have : resolveList (Json.obj fields) (k :: rest) key = resolveList w rest key := by
                simp [resolveList, List.foldl_cons, hf]
              rw [this]
              exact ih w hv
          | none => simp [pathLookup, hf] at h
      | null => simp [pathLookup] at h
      | bool b => simp [pathLookup] at h
      | num n => simp [pathLookup] at h
      | str s => simp [pathLookup] at h
      | arr elems => simp [pathLookup] at h

/-- The file system visible to a call: path to `none` (exists, not valid
JSON) or `some j` (valid JSON parsing to `j`); absent path = no file. -/
def FS : Type := List (String × Option Json)

/-- State of the `ConfigLoader` singleton: `configurations` and `config_paths`. -/
structure ConfigState where
  configurations : List (String × Json)
  config_paths : List (String × String)

/-- Errors raised by the configuration functions.  `typeError` and
`attributeError` are the uncontrolled Python `TypeError` (item assignment on
a non-dict) and `AttributeError` (`setdefault` on a non-dict); `keyError` is
the uncontrolled `self.config_paths[config_name]` lookup failure. -/
inductive ConfigError where
  | alreadyLoaded (name : String) : ConfigError
  | fileNotFound (path : String) : ConfigError
  | notLoaded (name : String) : ConfigError
  | invalidFormat (path : String) : ConfigError
  | invalidArgument : ConfigError
  | typeError : ConfigError
  | attributeError : ConfigError
  | keyError : ConfigError
deriving Repr, DecidableEq

/-- `ConfigLoader.load_configuration`: duplicate-name check, then existence
check, then parse; on success both maps gain the entry (the assignments
follow a successful `json.load`, so an error leaves both maps untouched). -/
def load_configuration (fs : FS) (s : ConfigState) (name path : String) :
    Option ConfigError × ConfigState :=
  if (lookupA s.configurations name).isSome then (some (.alreadyLoaded name), s)
  else
    match lookupA fs path with
    | none => (some (.fileNotFound path), s)
    | some none => (some (.invalidFormat path), s)
    | some (some j) =>
        (none,
         { configurations := insertA s.configurations name j,
           config_paths := insertA s.config_paths name path })

/-- A Python value as far as `_check_configuration_list` inspects one. -/
inductive PyVal where
  | str (s : String) : PyVal
  | pathLike (s : String) : PyVal
  | dict (fields : List (String × PyVal)) : PyVal
  | other : PyVal
deriving Repr

/-- One entry of the batch list is well-formed: a dict with `name` and
`path` keys, `name` a `str` and `path` a `str` or `os.PathLike`. -/
def checkEntry : PyVal → Bool
  | PyVal.dict fields =>
      (match lookupA fields "name" with
        | some (PyVal.str _) => true
        | _ => false)
      && (match lookupA fields "path" with
        | some (PyVal.str _) => true
        | some (PyVal.pathLike _) => true
        | _ => false)
  | _ => false

/-- `ConfigLoader._check_configuration_list`: every entry must be
well-formed (the outer `isinstance(list)` check is inherent in the typed
embedding; the distinct `ValueError` messages collapse to one error). -/
def check_configuration_list (entries : List PyVal) : Bool :=
  entries.all checkEntry

/-- The `configuration["name"]` access of a checked entry. -/
def entryName : PyVal → String
  | PyVal.dict fields =>
      match lookupA fields "name" with
      | some (PyVal.str s) => s
      | _ => ""
  | _ => ""

/-- The `configuration["path"]` access of a checked entry. -/
def entryPath : PyVal → String
  | PyVal.dict fields =>
      match lookupA fields "path" with
      | some (PyVal.str s) => s
      | some (PyVal.pathLike s) => s
      | _ => ""
  | _ => ""

/-- The sequential loading loop of `load_configurations`: stops at the
first error, keeping everything loaded so far (no rollback). -/
def loadConfigurationsGo (fs : FS) (s : ConfigState) :
    List PyVal → Option ConfigError × ConfigState
  | [] => (none, s)
  | e :: rest =>
      match load_configuration fs s (entryName e) (entryPath e) with
      | (none, s2) => loadConfigurationsGo fs s2 rest
      | (some err, s2) => (some err, s2)

/-- `ConfigLoader.load_configurations`: validates the whole list shape
before loading anything, then loads the entries in order. -/
def load_configurations (fs : FS) (s : ConfigState) (entries : List PyVal) :
    Option ConfigError × ConfigState :=
  if check_configuration_list entries then loadConfigurationsGo fs s entries
  else (some ConfigError.invalidArgument, s)

/-- `ConfigLoader.get_config`: not-loaded check, then the dotted fold. -/
def get_config (s : ConfigState) (key name : String) : Except ConfigError Json :=
  match lookupA s.configurations name with
  | none => Except.error (ConfigError.notLoaded name)
  | some doc => Except.ok (resolve doc key)

/-- The walk-and-assign of `set_config`, written as a pure recursion over
the split key.  `setdefault(k, \x7b\x7d)` returns the existing child when the key
is present (whatever it is) and a fresh empty dict otherwise; the final
segment is a plain item assignment.  A non-dict met with segments still to
walk raises `AttributeError`; a non-dict at the assignment raises
`TypeError`.  On the failing runs no insertion has happened yet (a fresh
empty dict can never fail further down), so the document is unchanged. -/
def setGo : Json → List String → Json → Except ConfigError Json
  | d, [k], v =>
      match d with
      | Json.obj fields => Except.ok (Json.obj (insertA fields k v))
      | _ => Except.error ConfigError.typeError
  | d, k :: k2 :: rest, v =>
      match d with
      | Json.obj fields =>
          let child := (lookupA fields k).getD (Json.obj [])
          match setGo child (k2 :: rest) v with
          | Except.ok c2 => Except.ok (Json.obj (insertA fields k c2))
          | Except.error e => Except.error e
      | _ => Except.error ConfigError.attributeError
  | _, [], _ => Except.error ConfigError.typeError

/-- Every container visited by the `set_config` walk (the document root and
the values reached through `key_parts[:-1]`) is a dict, or the walk leaves
the existing structure (an absent key yields only fresh dicts below it). -/
def setWalkOk : Json → List String → Bool
  | d, [] =>
      match d with
      | Json.obj _ => true
      | _ => false
  | d, k :: rest =>
      match d with
      | Json.obj fields =>
          match lookupA fields k with
          | none => true
          | some v => setWalkOk v rest
      | _ => false

/-- `ConfigLoader.set_config`: not-loaded check, in-place walk-and-assign on
the document, then `config_paths[config_name]` and the file write.  The
result is (raised error, singleton state, file system) exactly as Python
leaves them: a `setGo` failure happens before any insertion, and the
`keyError` of the path lookup happens after the document was updated. -/
def set_config (fs : FS) (s : ConfigState) (key : String) (value : Json) (name : String) :
    Option ConfigError × ConfigState × FS :=
  match lookupA s.configurations name with
  | none => (some (ConfigError.notLoaded name), s, fs)
  | some doc =>
      match setGo doc (pySplitDot key) value with
      | Except.error e => (some e, s, fs)
      | Except.ok doc2 =>
          let s2 : ConfigState :=
            { s with configurations := insertA s.configurations name doc2 }
          match lookupA s.config_paths name with
          | none => (some ConfigError.keyError, s2, fs)
          | some p => (none, s2, insertA fs p (some doc2))

/-- Module-level `remove_configuration`: not-loaded check, then
`del configurations[name]` — `config_paths` is not touched. -/
def remove_configuration (s : ConfigState) (name : String) :
    Option ConfigError × ConfigState :=
  if (lookupA s.configurations name).isSome then
    (none, { s with configurations := eraseA s.configurations name })
  else (some (ConfigError.notLoaded name), s)

/-- Module-level `remove_all_configurations`: clears both maps. -/
def remove_all_configurations (_s : ConfigState) : ConfigState :=
  { configurations := [], config_paths := [] }

/-- State of the `LangLoader` singleton: `languages` and the active
`language` pointer. -/
structure LangState where
  languages : List (String × Json)
  language : Option String

/-- Errors raised by the language functions.  `notLoaded` is
`LanguageNotLoadedError` (used both for an absent name and for an unset
active pointer); `keyError` is the uncontrolled
`self.languages[self.language]` lookup failure. -/
inductive LangError where
  | alreadyLoaded (name : String) : LangError
  | fileNotFound (path : String) : LangError
  | notLoaded : LangError
  | invalidFormat (path : String) : LangError
  | invalidArgument : LangError
  | keyError : LangError
deriving Repr, DecidableEq

/-- `LangLoader.load_language`: duplicate-name check, existence check,
parse; on success the languages map gains the entry. -/
def load_language (fs : FS) (s : LangState) (name path : String) :
    Option LangError × LangState :=
  if (lookupA s.languages name).isSome then (some (.alreadyLoaded name), s)
  else
    match lookupA fs path with
    | none => (some (.fileNotFound path), s)
    | some none => (some (.invalidFormat path), s)
    | some (some j) =>
        (none, { s with languages := insertA s.languages name j })

/-- `LangLoader._check_language_list`: same shape check as the config one. -/
def check_language_list (entries : List PyVal) : Bool :=
  entries.all checkEntry

/-- The sequential loading loop of `load_languages`. -/
def loadLanguagesGo (fs : FS) (s : LangState) :
    List PyVal → Option LangError × LangState
  | [] => (none, s)
  | e :: rest =>
      match load_language fs s (entryName e) (entryPath e) with
      | (none, s2) => loadLanguagesGo fs s2 rest
      | (some err, s2) => (some err, s2)

/-- `LangLoader.load_languages`: validate the list shape, then load in order. -/
def load_languages (fs : FS) (s : LangState) (entries : List PyVal) :
    Option LangError × LangState :=
  if check_language_list entries then loadLanguagesGo fs s entries
  else (some LangError.invalidArgument, s)

/-- `LangLoader.set_language`: not-loaded check, then record the pointer. -/
def set_language (s : LangState) (name : String) : Option LangError × LangState :=
  if (lookupA s.languages name).isSome then (none, { s with language := some name })
  else (some LangError.notLoaded, s)

/-- `LangLoader.get_message`: unset-pointer check, then the raw
`self.languages[self.language]` lookup (a `KeyError` when the pointer
dangles), then the dotted fold. -/
def get_message (s : LangState) (key : String) : Except LangError Json :=
  match s.language with
  | none => Except.error LangError.notLoaded
  | some n =>
      match lookupA s.languages n with
      | none => Except.error LangError.keyError
      | some doc => Except.ok (resolve doc key)

/-- Module-level `translate_message`: delegates to `get_message`. -/
def translate_message (s : LangState) (key : String) : Except LangError Json :=
  get_message s key

/-- Module-level `get_current_language` (= `LangLoader.get_language`):
returns the pointer as is, never validating it. -/
def get_current_language (s : LangState) : Option String :=
  s.language

/-- Module-level `remove_language`: raises `LanguageNotLoadedError` only
when the whole registry is empty (`if not lang_loader.languages`); otherwise
`languages.pop(lang_name, None)` — a silent no-op when the name is absent. -/
def remove_language (s : LangState) (name : String) : Option LangError × LangState :=
  match s.languages with
  | [] => (some LangError.notLoaded, s)
  | _ :: _ => (none, { s with languages := eraseA s.languages name })

/-- Module-level `remove_languages`: removes the names in order, stopping
at the first error. -/
def remove_languages (s : LangState) : List String → Option LangError × LangState
  | [] => (none, s)
  | n :: rest =>
      match remove_language s n with
      | (none, s2) => remove_languages s2 rest
      | (some err, s2) => (some err, s2)

/-- Module-level `remove_all_languages`: replaces the languages dict with
an empty one; the active pointer is not touched. -/
def remove_all_languages (s : LangState) : LangState :=
  { s with languages := [] }

theorem setWalkOk_empty_obj (segs : List String) : setWalkOk (Json.obj []) segs = true := by
  cases segs with
  | nil => rfl
  | cons k rest => simp [setWalkOk, lookupA]

theorem setGo_ok_of_walkOk (segs : List String) (d v : Json)
    (hne : segs ≠ []) (hw : setWalkOk d segs.dropLast = true) :
    ∃ d2, setGo d segs v = Except.ok d2 ∧ pathLookup d2 segs = some v := by
  induction segs generalizing d with
  | nil => exact absurd rfl hne
  | cons k rest ih =>
      cases rest with
      | nil =>
          cases d with
          | obj fields =>
              refine ⟨Json.obj (insertA fields k v), rfl, ?_⟩
              simp [pathLookup, lookupA_insertA_self]
          | null => simp [setWalkOk] at hw
          | bool b => simp [setWalkOk] at hw
          | num n => simp [setWalkOk] at hw
          | str s => simp [setWalkOk] at hw
          | arr elems => simp [setWalkOk] at hw
      | cons k2 rest2 =>
          cases d with
          | obj fields =>
              have hw2 : setWalkOk ((lookupA fields k).getD (Json.obj []))
                  (k2 :: rest2).dropLast = true := by
                cases hf : lookupA fields k with
                | none => simpa [hf] using setWalkOk_empty_obj (k2 :: rest2).dropLast
                | some w => simpa [setWalkOk, hf] using hw
              obtain ⟨c2, hok, hpath⟩ :=
                ih ((lookupA fields k).getD (Json.obj [])) (by simp) hw2
              refine ⟨Json.obj (insertA fields k c2), ?_, ?_⟩
              · simp only [setGo, hok]
              · simp [pathLookup, lookupA_insertA_self, hpath]
          | null => simp [setWalkOk] at hw
          | bool b => simp [setWalkOk] at hw
          | num n => simp [setWalkOk] at hw
          | str s => simp [setWalkOk] at hw
          | arr elems => simp [setWalkOk] at hw

theorem setGo_error_of_walkOk_false (segs : List String) (d v : Json)
    (hne : segs ≠ []) (hw : setWalkOk d segs.dropLast = false) :
    ∃ e, setGo d segs v = Except.error e ∧
      (e = ConfigError.typeError ∨ e = ConfigError.attributeError) := by
  induction segs generalizing d with
  | nil => exact absurd rfl hne
  | cons k rest ih =>
      cases rest with
      | nil =>
          cases d with
          | obj fields => simp [setWalkOk] at hw
          | null => exact ⟨ConfigError.typeError, rfl, Or.inl rfl⟩
          | bool b => exact ⟨ConfigError.typeError, rfl, Or.inl rfl⟩
          | num n => exact ⟨ConfigError.typeError, rfl, Or.inl rfl⟩
          | str s => exact ⟨ConfigError.typeError, rfl, Or.inl rfl⟩
          | arr elems => exact ⟨ConfigError.typeError, rfl, Or.inl rfl⟩
      | cons k2 rest2 =>
          cases d with
          | obj fields =>
              cases hf : lookupA fields k with
              | none => simp [setWalkOk, hf] at hw
              | some w =>
                  have hw2 : setWalkOk w (k2 :: rest2).dropLast = false := by
                    simpa [setWalkOk, hf] using hw
                  obtain ⟨e, herr, hkind⟩ := ih w (by simp) hw2
                  refine ⟨e, ?_, hkind⟩
                  simp only [setGo, hf, Option.getD_some, herr]
          | null => exact ⟨ConfigError.attributeError, rfl, Or.inr rfl⟩
          | bool b => exact ⟨ConfigError.attributeError, rfl, Or.inr rfl⟩
          | num n => exact ⟨ConfigError.attributeError, rfl, Or.inr rfl⟩
          | str s => exact ⟨ConfigError.attributeError, rfl, Or.inr rfl⟩
          | arr elems => exact ⟨ConfigError.attributeError, rfl, Or.inr rfl⟩

theorem setGo_error_kinds (segs : List String) (d v : Json) (e : ConfigError)
    (h : setGo d segs v = Except.error e) :
    e = ConfigError.typeError ∨ e = ConfigError.attributeError := by
  induction segs generalizing d with
  | nil =>
      simp only [setGo, Except.error.injEq] at h
      exact Or.inl h.symm
  | cons k rest ih =>
      cases rest with
      | nil =>
          cases d with
          | obj fields => simp [setGo] at h
          | null => simp only [setGo, Except.error.injEq] at h; exact Or.inl h.symm
          | bool b => simp only [setGo, Except.error.injEq] at h; exact Or.inl h.symm
          | num n => simp only [setGo, Except.error.injEq] at h; exact Or.inl h.symm
          | str s => simp only [setGo, Except.error.injEq] at h; exact Or.inl h.symm
          | arr elems => simp only [setGo, Except.error.injEq] at h; exact Or.inl h.symm
      | cons k2 rest2 =>
          cases d with
          | obj fields =>
              cases hgo : setGo ((lookupA fields k).getD (Json.obj [])) (k2 :: rest2) v with
              | ok c2 => simp [setGo, hgo] at h
              | error e2 =>
                  have he : e2 = e := by
                    simpa [setGo, hgo] using h
                  exact ih ((lookupA fields k).getD (Json.obj [])) (he ▸ hgo)
          | null => simp only [setGo, Except.error.injEq] at h; exact Or.inr h.symm
          | bool b => simp only [setGo, Except.error.injEq] at h; exact Or.inr h.symm
          | num n => simp only [setGo, Except.error.injEq] at h; exact Or.inr h.symm
          | str s => simp only [setGo, Except.error.injEq] at h; exact Or.inr h.symm
          | arr elems => simp only [setGo, Except.error.injEq] at h; exact Or.inr h.symm

/-- The operations of the configuration API, for stating the reachable-state
invariant. -/
inductive ConfigOp where
  | load (name path : String) : ConfigOp
  | loadBatch (entries : List PyVal) : ConfigOp
  | getValue (key name : String) : ConfigOp
  | setValue (key : String) (value : Json) (name : String) : ConfigOp
  | remove (name : String) : ConfigOp
  | removeAll : ConfigOp

/-- The singleton state after one API call (each call sees the file system
of its moment); a raised error leaves the state the call produced so far. -/
def stepConfig (fs : FS) (s : ConfigState) : ConfigOp → ConfigState
  | ConfigOp.load n p => (load_configuration fs s n p).2
  | ConfigOp.loadBatch es => (load_configurations fs s es).2
  | ConfigOp.getValue _ _ => s
  | ConfigOp.setValue key v n => (set_config fs s key v n).2.1
  | ConfigOp.remove n => (remove_configuration s n).2
  | ConfigOp.removeAll => remove_all_configurations s

/-- The fresh singleton: both dicts empty. -/
def emptyConfigState : ConfigState :=
  { configurations := [], config_paths := [] }

/-- The state reached from the fresh singleton by a sequence of calls. -/
def runConfig (ops : List (FS × ConfigOp)) : ConfigState :=
  ops.foldl (fun s op => stepConfig op.1 s op.2) emptyConfigState

/-- Invariant: every loaded configuration name has a source path recorded. -/
def ConfigInv (s : ConfigState) : Prop :=
  ∀ n, (lookupA s.configurations n).isSome = true →
    (lookupA s.config_paths n).isSome = true

theorem configInv_empty : ConfigInv emptyConfigState := by
  intro n h
  simp [emptyConfigState, lookupA] at h

theorem configInv_load (fs : FS) (s : ConfigState) (n p : String)
    (hs : ConfigInv s) : ConfigInv (load_configuration fs s n p).2 := by
  unfold load_configuration
  by_cases hdup : (lookupA s.configurations n).isSome
  · simpa [hdup] using hs
  · cases hfs : lookupA fs p with
    | none => simpa [hdup, hfs] using hs
    | some c =>
        cases c with
        | none => simpa [hdup, hfs] using hs
        | some j =>
            simp only [hdup, hfs, Bool.false_eq_true, if_false]
            intro m hm
            by_cases hmn : m = n
            · subst hmn
              simp [lookupA_insertA_self]
            · simp only [lookupA_insertA_ne _ _ _ _ hmn] at hm ⊢
              exact hs m hm

theorem configInv_loadGo (fs : FS) (es : List PyVal) (s : ConfigState)
    (hs : ConfigInv s) : ConfigInv (loadConfigurationsGo fs s es).2 := by
  induction es generalizing s with
  | nil => simpa [loadConfigurationsGo] using hs
  | cons e rest ih =>
      have hstep : ConfigInv (load_configuration fs s (entryName e) (entryPath e)).2 :=
        configInv_load fs s (entryName e) (entryPath e) hs
      cases hr : load_configuration fs s (entryName e) (entryPath e) with
      | mk o s2 =>
          have hs2 : ConfigInv s2 := by
            rw [hr] at hstep
            exact hstep
          cases o with
          | none => simpa [loadConfigurationsGo, hr] using ih s2 hs2
          | some err => simpa [loadConfigurationsGo, hr] using hs2

theorem configInv_loadBatch (fs : FS) (s : ConfigState) (es : List PyVal)
    (hs : ConfigInv s) : ConfigInv (load_configurations fs s es).2 := by
  unfold load_configurations
  by_cases hc : check_configuration_list es
  · simpa [hc] using configInv_loadGo fs es s hs
  · simpa [hc] using hs

theorem configInv_set (fs : FS) (s : ConfigState) (key n : String) (v : Json)
    (hs : ConfigInv s) : ConfigInv (set_config fs s key v n).2.1 := by
  unfold set_config
  cases hl : lookupA s.configurations n with
  | none => simpa using hs
  | some doc =>
      cases hgo : setGo doc (pySplitDot key) v with
      | error e => simpa [hgo] using hs
      | ok doc2 =>
          have hinv2 : ConfigInv
              { s with configurations := insertA s.configurations n doc2 } := by
            intro m hm
            by_cases hmn : m = n
            · subst hmn
              exact hs m (by simp [hl])
            · simp only [lookupA_insertA_ne _ _ _ _ hmn] at hm
              exact hs m hm
          cases hp : lookupA s.config_paths n with
          | none => simpa [hgo, hp] using hinv2
          | some p => simpa [hgo, hp] using hinv2

theorem configInv_remove (s : ConfigState) (n : String)
    (hs : ConfigInv s) : ConfigInv (remove_configuration s n).2 := by
  unfold remove_configuration
  by_cases hl : (lookupA s.configurations n).isSome
  · simp only [hl, if_true]
    intro m hm
    exact hs m (lookupA_eraseA_isSome _ _ _ hm)
  · simpa [hl] using hs

theorem configInv_removeAll (s : ConfigState) :
    ConfigInv (remove_all_configurations s) := by
  intro n h
  simp [remove_all_configurations, lookupA] at h

theorem configInv_step (fs : FS) (s : ConfigState) (op : ConfigOp)
    (hs : ConfigInv s) : ConfigInv (stepConfig fs s op) := by
  cases op with
  | load n p => exact configInv_load fs s n p hs
  | loadBatch es => exact configInv_loadBatch fs s es hs
  | getValue key n => exact hs
  | setValue key v n => exact configInv_set fs s key n v hs
  | remove n => exact configInv_remove s n hs
  | removeAll => exact configInv_removeAll s

theorem configInv_foldl (ops : List (FS × ConfigOp)) (s : ConfigState)
    (hs : ConfigInv s) :
    ConfigInv (ops.foldl (fun s1 op => stepConfig op.1 s1 op.2) s) := by
  induction ops generalizing s with
  | nil => simpa using hs
  | cons op rest ih =>
      simp only [List.foldl_cons]
      exact ih (stepConfig op.1 s op.2) (configInv_step op.1 s op.2 hs)

theorem configInv_run (ops : List (FS × ConfigOp)) : ConfigInv (runConfig ops) :=
  configInv_foldl ops emptyConfigState configInv_empty

theorem set_config_no_keyError (fs : FS) (s : ConfigState) (key n : String)
    (v : Json) (hs : ConfigInv s) :
    (set_config fs s key v n).1 ≠ some ConfigError.keyError := by
  unfold set_config
  cases hl : lookupA s.configurations n with
  | none => simp
  | some doc =>
      cases hgo : setGo doc (pySplitDot key) v with
      | error e =>
          have := setGo_error_kinds (pySplitDot key) doc v e hgo
          rcases this with he | he <;> subst he <;> simp [hgo]
      | ok doc2 =>
          cases hp : lookupA s.config_paths n with
          | none =>
              have : (lookupA s.config_paths n).isSome = true := hs n (by simp [hl])
              rw [hp] at this
              simp at this
          | some p => simp [hgo]

/-- C1: for every loaded configuration name and loaded active language, the
dotted get (`get_config`) and translate (`get_message`) never raise: they
return `Except.ok` of the dotted fold, and that fold yields the original
full key string whenever the full dotted path does not exist in the
document, and the value found at the path whenever it does. -/
theorem c1_dotted_get_falls_back_to_key (s : ConfigState) (t : LangState)
    (cname lname key : String) (doc ldoc : Json)
    (hc : lookupA s.configurations cname = some doc)
    (hl : t.language = some lname)
    (hd : lookupA t.languages lname = some ldoc) :
    get_config s key cname = Except.ok (resolve doc key) ∧
    get_message t key = Except.ok (resolve ldoc key) ∧
    (pathLookup doc (pySplitDot key) = none → resolve doc key = Json.str key) ∧
    (∀ v, pathLookup doc (pySplitDot key) = some v → resolve doc key = v) ∧
    (pathLookup ldoc (pySplitDot key) = none → resolve ldoc key = Json.str key) ∧
    (∀ v, pathLookup ldoc (pySplitDot key) = some v → resolve ldoc key = v) := by
  refine ⟨?_, ?_, ?_, ?_, ?_, ?_⟩
  · simp [get_config, hc]
  · simp [get_message, hl, hd]
  · intro h
    unfold resolve
    exact resolveList_of_pathLookup_none _ _ _ h
  · intro v h
    unfold resolve
    exact resolveList_of_pathLookup_some _ _ _ _ h
  · intro h
    unfold resolve
    exact resolveList_of_pathLookup_none _ _ _ h
  · intro v h
    unfold resolve
    exact resolveList_of_pathLookup_some _ _ _ _ h

/-- Witness for C1: resolving "a.b.missing" against a configuration whose
document is the object a -> b -> empty object returns the key itself, and
resolving "a.b" returns the value found there. -/
theorem c1_witness :
    get_config
        { configurations :=
            [("cfg", Json.obj [("a", Json.obj [("b", Json.obj [])])])],
          config_paths := [("cfg", "cfg.json")] }
        "a.b.missing" "cfg" = Except.ok (Json.str "a.b.missing") ∧
    get_message
        { languages := [("en", Json.obj [("a", Json.obj [("b", Json.obj [])])])],
          language := some "en" }
        "a.b" = Except.ok (Json.obj []) := by
  have h := c1_dotted_get_falls_back_to_key
    { configurations := [("cfg", Json.obj [("a", Json.obj [("b", Json.obj [])])])],
      config_paths := [("cfg", "cfg.json")] }
    { languages := [("en", Json.obj [("a", Json.obj [("b", Json.obj [])])])],
      language := some "en" }
    "cfg" "en" "a.b.missing"
    (Json.obj [("a", Json.obj [("b", Json.obj [])])])
    (Json.obj [("a", Json.obj [("b", Json.obj [])])])
    rfl rfl rfl
  have h2 := c1_dotted_get_falls_back_to_key
    { configurations := [("cfg", Json.obj [("a", Json.obj [("b", Json.obj [])])])],
      config_paths := [("cfg", "cfg.json")] }
    { languages := [("en", Json.obj [("a", Json.obj [("b", Json.obj [])])])],
      language := some "en" }
    "cfg" "en" "a.b"
    (Json.obj [("a", Json.obj [("b", Json.obj [])])])
    (Json.obj [("a", Json.obj [("b", Json.obj [])])])
    rfl rfl rfl
  constructor
  · rw [h.1, h.2.2.1 rfl]
  · rw [h2.2.1, h2.2.2.2.2.2 (Json.obj []) rfl]

/-- C2: for a loaded configuration whose document admits the walk of the
dotted key (each visited container is a dict, or the key is absent from it),
`set_config` raises nothing and an immediate `get_config` of the same key
returns exactly the just-set value. -/
theorem c2_set_get_roundtrip (fs : FS) (s : ConfigState) (name key p : String)
    (v doc : Json)
    (hc : lookupA s.configurations name = some doc)
    (hp : lookupA s.config_paths name = some p)
    (hw : setWalkOk doc (pySplitDot key).dropLast = true) :
    (set_config fs s key v name).1 = none ∧
    get_config (set_config fs s key v name).2.1 key name = Except.ok v := by
  obtain ⟨doc2, hok, hpath⟩ :=
    setGo_ok_of_walkOk (pySplitDot key) doc v (pySplitDot_ne_nil key) hw
  have hres : resolve doc2 key = v := by
    unfold resolve
    exact resolveList_of_pathLookup_some _ _ _ _ hpath
  constructor
  · simp [set_config, hc, hok, hp]
  · simp [set_config, hc, hok, hp, get_config, lookupA_insertA_self, hres]

/-- Witness for C2: setting "a.b" to 5 in a loaded empty-object document and
reading it back returns 5. -/
theorem c2_witness :
    (set_config []
      { configurations := [("cfg", Json.obj [])],
        config_paths := [("cfg", "cfg.json")] } "a.b" (Json.num 5) "cfg").1 = none ∧
    get_config
      (set_config []
        { configurations := [("cfg", Json.obj [])],
          config_paths := [("cfg", "cfg.json")] } "a.b" (Json.num 5) "cfg").2.1
      "a.b" "cfg" = Except.ok (Json.num 5) :=
  c2_set_get_roundtrip []
    { configurations := [("cfg", Json.obj [])], config_paths := [("cfg", "cfg.json")] }
    "cfg" "a.b" "cfg.json" (Json.num 5) (Json.obj []) rfl rfl rfl

/-- C8: a second load of an already-present name always raises
AlreadyLoaded and leaves the state unchanged, for every path argument and
every file system — the duplicate-name check precedes the existence check
and the parse. -/
theorem c8_duplicate_load_always_alreadyLoaded (fs : FS) (s : ConfigState)
    (t : LangState) (n p : String)
    (hc : (lookupA s.configurations n).isSome = true)
    (hl : (lookupA t.languages n).isSome = true) :
    load_configuration fs s n p = (some (ConfigError.alreadyLoaded n), s) ∧
    load_language fs t n p = (some (LangError.alreadyLoaded n), t) := by
  constructor
  · simp [load_configuration, hc]
  · simp [load_language, hl]

/-- Witness for C8: reloading name "a" under a path that does not even
exist in the file system still reports AlreadyLoaded. -/
theorem c8_witness :
    load_configuration []
      { configurations := [("a", Json.null)],
        config_paths := [("a", "a.json")] } "a" "other.json"
      = (some (ConfigError.alreadyLoaded "a"),
         { configurations := [("a", Json.null)], config_paths := [("a", "a.json")] }) ∧
    load_language [] { languages := [("a", Json.null)], language := none } "a" "missing.json"
      = (some (LangError.alreadyLoaded "a"),
         { languages := [("a", Json.null)], language := none }) :=
  c8_duplicate_load_always_alreadyLoaded []
    { configurations := [("a", Json.null)], config_paths := [("a", "a.json")] }
    { languages := [("a", Json.null)], language := none }
    "a" "other.json" rfl rfl

/-- Counterexample to C3: with the non-empty registry holding only "en",
removing the absent name "fr" raises nothing and leaves the registry
unchanged, where the claim demands a NotLoaded error. -/
theorem c3_counterexample :
    remove_language { languages := [("en", Json.obj [])], language := none } "fr"
      = (none, { languages := [("en", Json.obj [])], language := none }) := rfl

/-- C3 (amended): `remove_language` raises NotLoaded exactly when the whole
registry is empty; on a non-empty registry it never raises: it deletes the
entry for the name when present and is a silent no-op when absent. -/
theorem c3_remove_language_contract (s : LangState) (n : String)
    (hnodup : (s.languages.map Prod.fst).Nodup) :
    (s.languages = [] → remove_language s n = (some LangError.notLoaded, s)) ∧
    (s.languages ≠ [] →
      (remove_language s n).1 = none ∧
      (remove_language s n).2.languages = eraseA s.languages n ∧
      (remove_language s n).2.language = s.language ∧
      lookupA (remove_language s n).2.languages n = none ∧
      (∀ m, m ≠ n → lookupA (remove_language s n).2.languages m = lookupA s.languages m) ∧
      (lookupA s.languages n = none → (remove_language s n).2 = s)) := by
  constructor
  · intro he
    unfold remove_language
    rw [he]
  · intro hne
    obtain ⟨q, rest, hql⟩ : ∃ q rest, s.languages = q :: rest := by
      cases hcase : s.languages with
      | nil => exact absurd hcase hne
      | cons q rest => exact ⟨q, rest, rfl⟩
    have hr : remove_language s n = (none, { s with languages := eraseA s.languages n }) := by
      unfold remove_language
      rw [hql]
    refine ⟨by rw [hr], by rw [hr], by rw [hr], ?_, ?_, ?_⟩
    · rw [hr]
      exact lookupA_eraseA_self s.languages n hnodup
    · intro m hm
      rw [hr]
      exact lookupA_eraseA_ne s.languages n m hm
    · intro habs
      rw [hr]
      have : eraseA s.languages n = s.languages := eraseA_of_absent s.languages n habs
      rw [this]

/-- Witness for C3 (amended): removing "en" from the registry holding "en"
and "es" raises nothing, deletes the "en" entry and keeps the "es" entry. -/
theorem c3_witness :
    (remove_language
        { languages := [("en", Json.obj []), ("es", Json.obj [])], language := none }
        "en").1 = none ∧
    lookupA (remove_language
        { languages := [("en", Json.obj []), ("es", Json.obj [])], language := none }
        "en").2.languages "en" = none ∧
    lookupA (remove_language
        { languages := [("en", Json.obj []), ("es", Json.obj [])], language := none }
        "en").2.languages "es"
      = lookupA [("en", Json.obj []), ("es", Json.obj [])] "es" :=
  have h := (c3_remove_language_contract
    { languages := [("en", Json.obj []), ("es", Json.obj [])], language := none }
    "en" (by simp)).2 (by simp)
  ⟨h.1, h.2.2.2.1, h.2.2.2.2.1 "es" (by simp)⟩

/-- Counterexample to C4: removing the loaded name "a" deletes its document
but its source-path mapping survives in `config_paths`, where the claim
demands the name be absent from both maps afterward. -/
theorem c4_counterexample :
    remove_configuration
        { configurations := [("a", Json.obj [])], config_paths := [("a", "a.json")] } "a"
      = (none, { configurations := [], config_paths := [("a", "a.json")] }) := rfl

/-- C4 (amended): for a loaded name, `remove_configuration` raises nothing
and deletes the document entry, but the source-path mapping is left in
`config_paths` untouched (only `remove_all_configurations` clears it). -/
theorem c4_remove_configuration_keeps_path (s : ConfigState) (n : String)
    (hld : (lookupA s.configurations n).isSome = true)
    (hnodup : (s.configurations.map Prod.fst).Nodup) :
    (remove_configuration s n).1 = none ∧
    (remove_configuration s n).2.configurations = eraseA s.configurations n ∧
    lookupA (remove_configuration s n).2.configurations n = none ∧
    (remove_configuration s n).2.config_paths = s.config_paths := by
  have hr : remove_configuration s n
      = (none, { s with configurations := eraseA s.configurations n }) := by
    unfold remove_configuration
    rw [if_pos hld]
  refine ⟨by rw [hr], by rw [hr], ?_, by rw [hr]⟩
  rw [hr]
  exact lookupA_eraseA_self s.configurations n hnodup

/-- Witness for C4 (amended): removing loaded name "a" keeps its path. -/
theorem c4_witness :
    (remove_configuration
        { configurations := [("a", Json.null)], config_paths := [("a", "a.json")] } "a").1
      = none ∧
    (remove_configuration
        { configurations := [("a", Json.null)], config_paths := [("a", "a.json")] } "a").2.configurations
      = eraseA [("a", Json.null)] "a" ∧
    lookupA (remove_configuration
        { configurations := [("a", Json.null)], config_paths := [("a", "a.json")] } "a").2.configurations "a"
      = none ∧
    (remove_configuration
        { configurations := [("a", Json.null)], config_paths := [("a", "a.json")] } "a").2.config_paths
      = [("a", "a.json")] :=
  c4_remove_configuration_keeps_path
    { configurations := [("a", Json.null)], config_paths := [("a", "a.json")] } "a"
    rfl (by simp)

/-- Counterexample to C5: with a.b set as "a" -> "x" (a string) in loaded
config "c", setting key "a.b" raises a TypeError (the claim says it
succeeds by silently overwriting the scalar), and the state is unchanged. -/
theorem c5_counterexample :
    set_config []
        { configurations := [("c", Json.obj [("a", Json.str "x")])],
          config_paths := [("c", "c.json")] }
        "a.b" (Json.str "v") "c"
      = (some ConfigError.typeError,
         { configurations := [("c", Json.obj [("a", Json.str "x")])],
           config_paths := [("c", "c.json")] },
         []) := rfl

/-- C5 (amended): when the walk of the dotted key meets a non-dict value
(at an intermediate container or at the final assignment container),
`set_config` does not silently overwrite it: it raises an uncontrolled
TypeError or AttributeError (`setdefault` returns the existing scalar,
which the next step cannot treat as a dict) and leaves the in-memory
document, the registry and the file system unchanged. -/
theorem c5_set_on_scalar_intermediate_raises (fs : FS) (s : ConfigState)
    (name key : String) (v doc : Json)
    (hc : lookupA s.configurations name = some doc)
    (hbad : setWalkOk doc (pySplitDot key).dropLast = false) :
    ∃ e, set_config fs s key v name = (some e, s, fs) ∧
      (e = ConfigError.typeError ∨ e = ConfigError.attributeError) := by
  obtain ⟨e, herr, hkind⟩ :=
    setGo_error_of_walkOk_false (pySplitDot key) doc v (pySplitDot_ne_nil key) hbad
  refine ⟨e, ?_, hkind⟩
  simp [set_config, hc, herr]

/-- Witness for C5 (amended): setting "a.b.c" over the scalar at "a"
raises (here an AttributeError, from `setdefault` on a string). -/
theorem c5_witness :
    ∃ e, set_config []
        { configurations := [("c", Json.obj [("a", Json.str "x")])],
          config_paths := [("c", "c.json")] }
        "a.b.c" (Json.num 1) "c"
      = (some e,
         { configurations := [("c", Json.obj [("a", Json.str "x")])],
           config_paths := [("c", "c.json")] },
         []) ∧
      (e = ConfigError.typeError ∨ e = ConfigError.attributeError) :=
  c5_set_on_scalar_intermediate_raises []
    { configurations := [("c", Json.obj [("a", Json.str "x")])],
      config_paths := [("c", "c.json")] }
    "c" "a.b.c" (Json.num 1) (Json.obj [("a", Json.str "x")]) rfl rfl

/-- C6: loading a file that exists but is not valid JSON raises
InvalidFormat (a ValueError) and leaves the registry exactly as before:
the name stays absent from the document map and, for configurations, from
the path map — no partial entry. -/
theorem c6_invalid_json_leaves_registry (fs : FS) (s : ConfigState)
    (t : LangState) (n p : String)
    (hfs : lookupA fs p = some none)
    (hc : lookupA s.configurations n = none)
    (hcp : lookupA s.config_paths n = none)
    (hl : lookupA t.languages n = none) :
    load_configuration fs s n p = (some (ConfigError.invalidFormat p), s) ∧
    load_language fs t n p = (some (LangError.invalidFormat p), t) ∧
    lookupA (load_configuration fs s n p).2.configurations n = none ∧
    lookupA (load_configuration fs s n p).2.config_paths n = none ∧
    lookupA (load_language fs t n p).2.languages n = none := by
  have h1 : load_configuration fs s n p = (some (ConfigError.invalidFormat p), s) := by
    simp [load_configuration, hc, hfs]
  have h2 : load_language fs t n p = (some (LangError.invalidFormat p), t) := by
    simp [load_language, hl, hfs]
  refine ⟨h1, h2, ?_, ?_, ?_⟩
  · rw [h1]; exact hc
  · rw [h1]; exact hcp
  · rw [h2]; exact hl

/-- Witness for C6: loading the invalid-JSON file "bad.json" under fresh
name "n" fails with InvalidFormat and the registries stay empty. -/
theorem c6_witness :
    load_configuration [("bad.json", none)]
        { configurations := [], config_paths := [] } "n" "bad.json"
      = (some (ConfigError.invalidFormat "bad.json"),
         { configurations := [], config_paths := [] }) ∧
    load_language [("bad.json", none)] { languages := [], language := none } "n" "bad.json"
      = (some (LangError.invalidFormat "bad.json"),
         { languages := [], language := none }) ∧
    lookupA (load_configuration [("bad.json", none)]
        { configurations := [], config_paths := [] } "n" "bad.json").2.configurations "n"
      = none ∧
    lookupA (load_configuration [("bad.json", none)]
        { configurations := [], config_paths := [] } "n" "bad.json").2.config_paths "n"
      = none ∧
    lookupA (load_language [("bad.json", none)]
        { languages := [], language := none } "n" "bad.json").2.languages "n"
      = none :=
  c6_invalid_json_leaves_registry [("bad.json", none)]
    { configurations := [], config_paths := [] }
    { languages := [], language := none }
    "n" "bad.json" rfl rfl rfl rfl

/-- C7: both batch loaders (`load_configurations` and `load_languages`)
validate the whole list shape before loading anything (a malformed list
raises InvalidArgument with the registry unchanged); otherwise entries are
loaded strictly in order with no rollback: a prefix that succeeds stays
committed, and a batch of two entries sharing one name loads the first and
then fails with AlreadyLoaded, the registry afterward holding exactly the
first entry. -/
theorem c7_batch_validation_and_no_rollback (fs : FS) :
    (∀ (s : ConfigState) (entries : List PyVal),
        check_configuration_list entries = false →
        load_configurations fs s entries = (some ConfigError.invalidArgument, s)) ∧
    (∀ (s s1 : ConfigState) (es1 es2 : List PyVal),
        loadConfigurationsGo fs s es1 = (none, s1) →
        loadConfigurationsGo fs s (es1 ++ es2) = loadConfigurationsGo fs s1 es2) ∧
    (∀ (s : ConfigState) (e1 e2 : PyVal) (n p1 : String) (j1 : Json),
        check_configuration_list [e1, e2] = true →
        entryName e1 = n → entryName e2 = n → entryPath e1 = p1 →
        lookupA s.configurations n = none →
        lookupA fs p1 = some (some j1) →
        load_configurations fs s [e1, e2]
          = (some (ConfigError.alreadyLoaded n),
             { configurations := insertA s.configurations n j1,
               config_paths := insertA s.config_paths n p1 })) ∧
    (∀ (t : LangState) (entries : List PyVal),
        check_language_list entries = false →
        load_languages fs t entries = (some LangError.invalidArgument, t)) ∧
    (∀ (t t1 : LangState) (es1 es2 : List PyVal),
        loadLanguagesGo fs t es1 = (none, t1) →
        loadLanguagesGo fs t (es1 ++ es2) = loadLanguagesGo fs t1 es2) ∧
    (∀ (t : LangState) (e1 e2 : PyVal) (n p1 : String) (j1 : Json),
        check_language_list [e1, e2] = true →
        entryName e1 = n → entryName e2 = n → entryPath e1 = p1 →
        lookupA t.languages n = none →
        lookupA fs p1 = some (some j1) →
        load_languages fs t [e1, e2]
          = (some (LangError.alreadyLoaded n),
             { t with languages := insertA t.languages n j1 })) := by
  refine ⟨?_, ?_, ?_, ?_, ?_, ?_⟩
  · intro s entries hbad
    simp [load_configurations, hbad]
  · intro s s1 es1 es2 hpre
    induction es1 generalizing s with
    | nil =>
        simp only [loadConfigurationsGo, Prod.mk.injEq] at hpre
        rw [List.nil_append, hpre.2]
    | cons e rest ih =>
        cases hr : load_configuration fs s (entryName e) (entryPath e) with
        | mk o s2 =>
            cases o with
            | none =>
                have hpre2 : loadConfigurationsGo fs s2 rest = (none, s1) := by
                  simpa [loadConfigurationsGo, hr] using hpre
                have : loadConfigurationsGo fs s ((e :: rest) ++ es2)
                    = loadConfigurationsGo fs s2 (rest ++ es2) := by
                  simp [loadConfigurationsGo, hr]
                rw [this]
                exact ih s2 hpre2
            | some err =>
                simp [loadConfigurationsGo, hr] at hpre
  · intro s e1 e2 n p1 j1 hcheck hn1 hn2 hp1 habs hfs
    have hload1 : load_configuration fs s (entryName e1) (entryPath e1)
        = (none,
           { configurations := insertA s.configurations n j1,
             config_paths := insertA s.config_paths n p1 }) := by
      rw [hn1, hp1]
      simp [load_configuration, habs, hfs]
    have hload2 : load_configuration fs
        { configurations := insertA s.configurations n j1,
          config_paths := insertA s.config_paths n p1 }
        (entryName e2) (entryPath e2)
        = (some (ConfigError.alreadyLoaded n),
           { configurations := insertA s.configurations n j1,
             config_paths := insertA s.config_paths n p1 }) := by
      rw [hn2]
      simp [load_configuration, lookupA_insertA_self]
    simp [load_configurations, hcheck, loadConfigurationsGo, hload1, hload2]
  · intro t entries hbad
    simp [load_languages, hbad]
  · intro t t1 es1 es2 hpre
    induction es1 generalizing t with
    | nil =>
        simp only [loadLanguagesGo, Prod.mk.injEq] at hpre
        rw [List.nil_append, hpre.2]
    | cons e rest ih =>
        cases hr : load_language fs t (entryName e) (entryPath e) with
        | mk o t2 =>
            cases o with
            | none =>
                have hpre2 : loadLanguagesGo fs t2 rest = (none, t1) := by
                  simpa [loadLanguagesGo, hr] using hpre
                have : loadLanguagesGo fs t ((e :: rest) ++ es2)
                    = loadLanguagesGo fs t2 (rest ++ es2) := by
                  simp [loadLanguagesGo, hr]
                rw [this]
                exact ih t2 hpre2
            | some err =>
                simp [loadLanguagesGo, hr] at hpre
  · intro t e1 e2 n p1 j1 hcheck hn1 hn2 hp1 habs hfs
    have hload1 : load_language fs t (entryName e1) (entryPath e1)
        = (none, { t with languages := insertA t.languages n j1 }) := by
      rw [hn1, hp1]
      simp [load_language, habs, hfs]
    have hload2 : load_language fs
        { t with languages := insertA t.languages n j1 }
        (entryName e2) (entryPath e2)
        = (some (LangError.alreadyLoaded n),
           { t with languages := insertA t.languages n j1 }) := by
      rw [hn2]
      simp [load_language, lookupA_insertA_self]
    simp [load_languages, hcheck, loadLanguagesGo, hload1, hload2]

/-- Witness for C7: a malformed batch (an entry missing the path key) is
rejected whole by both batch loaders, and the duplicate-name batch
[n -> good.json, n -> other] commits exactly the first entry before
failing with AlreadyLoaded, again in both registries. -/
theorem c7_witness :
    load_configurations [("good.json", some (Json.obj []))]
        { configurations := [], config_paths := [] }
        [PyVal.dict [("name", PyVal.str "n")]]
      = (some ConfigError.invalidArgument,
         { configurations := [], config_paths := [] }) ∧
    load_configurations [("good.json", some (Json.obj []))]
        { configurations := [], config_paths := [] }
        [PyVal.dict [("name", PyVal.str "n"), ("path", PyVal.str "good.json")],
         PyVal.dict [("name", PyVal.str "n"), ("path", PyVal.str "other.json")]]
      = (some (ConfigError.alreadyLoaded "n"),
         { configurations := insertA [] "n" (Json.obj []),
           config_paths := insertA [] "n" "good.json" }) ∧
    load_languages [("good.json", some (Json.obj []))]
        { languages := [], language := none }
        [PyVal.dict [("name", PyVal.str "n")]]
      = (some LangError.invalidArgument, { languages := [], language := none }) ∧
    load_languages [("good.json", some (Json.obj []))]
        { languages := [], language := none }
        [PyVal.dict [("name", PyVal.str "n"), ("path", PyVal.str "good.json")],
         PyVal.dict [("name", PyVal.str "n"), ("path", PyVal.str "other.json")]]
      = (some (LangError.alreadyLoaded "n"),
         { languages := insertA [] "n" (Json.obj []), language := none }) :=
  have h := c7_batch_validation_and_no_rollback [("good.json", some (Json.obj []))]
  ⟨h.1 { configurations := [], config_paths := [] }
      [PyVal.dict [("name", PyVal.str "n")]] rfl,
   h.2.2.1 { configurations := [], config_paths := [] }
      (PyVal.dict [("name", PyVal.str "n"), ("path", PyVal.str "good.json")])
      (PyVal.dict [("name", PyVal.str "n"), ("path", PyVal.str "other.json")])
      "n" "good.json" (Json.obj []) rfl rfl rfl rfl rfl rfl,
   h.2.2.2.1 { languages := [], language := none }
      [PyVal.dict [("name", PyVal.str "n")]] rfl,
   h.2.2.2.2.2 { languages := [], language := none }
      (PyVal.dict [("name", PyVal.str "n"), ("path", PyVal.str "good.json")])
      (PyVal.dict [("name", PyVal.str "n"), ("path", PyVal.str "other.json")])
      "n" "good.json" (Json.obj []) rfl rfl rfl rfl rfl rfl⟩

/-- C9: starting from the fresh singleton, every sequence of configuration
operations keeps the invariant that each name present in `configurations`
also has an entry in `config_paths` (load records both, set changes no
keys, the removals never keep a document while dropping its path), so the
`config_paths[config_name]` lookup inside `set_config` never raises for a
loaded name. -/
theorem c9_loaded_name_always_has_path (ops : List (FS × ConfigOp)) (fs : FS)
    (s : ConfigState) (key name : String) (v : Json) (hs : ConfigInv s) :
    ConfigInv (runConfig ops) ∧
    (set_config fs s key v name).1 ≠ some ConfigError.keyError :=
  ⟨configInv_run ops, set_config_no_keyError fs s key name v hs⟩

/-- Witness for C9: a load followed by a set and a remove keeps the
invariant, and a concrete `set_config` never reports the path KeyError. -/
theorem c9_witness :
    ConfigInv (runConfig
      [([("p.json", some (Json.obj []))], ConfigOp.load "a" "p.json"),
       ([], ConfigOp.setValue "k" Json.null "a"),
       ([], ConfigOp.remove "a")]) ∧
    (set_config [] { configurations := [], config_paths := [] } "k" Json.null "a").1
      ≠ some ConfigError.keyError :=
  c9_loaded_name_always_has_path
    [([("p.json", some (Json.obj []))], ConfigOp.load "a" "p.json"),
     ([], ConfigOp.setValue "k" Json.null "a"),
     ([], ConfigOp.remove "a")]
    [] { configurations := [], config_paths := [] } "k" "a" Json.null
    (by intro n h; simp [lookupA] at h)

/-- C10: when the active language pointer dangles (it names n but n was
removed by `remove_language` or `remove_all_languages`),
`get_message`/`translate_message` raises the uncontrolled dictionary
KeyError — not the LanguageNotLoadedError used for an unset pointer — and
`get_current_language` still returns the removed name: no operation clears
or re-validates the pointer. -/
theorem c10_dangling_pointer_raises_keyerror (u : LangState) (n key : String)
    (hl : u.language = some n)
    (hnodup : (u.languages.map Prod.fst).Nodup)
    (hne : u.languages ≠ []) :
    get_message (remove_all_languages u) key = Except.error LangError.keyError ∧
    get_message (remove_all_languages u) key ≠ Except.error LangError.notLoaded ∧
    get_current_language (remove_all_languages u) = some n ∧
    (remove_language u n).1 = none ∧
    translate_message (remove_language u n).2 key = Except.error LangError.keyError ∧
    translate_message (remove_language u n).2 key ≠ Except.error LangError.notLoaded ∧
    get_current_language (remove_language u n).2 = some n := by
  have hall : get_message (remove_all_languages u) key
      = Except.error LangError.keyError := by
    simp [remove_all_languages, get_message, hl, lookupA]
  obtain ⟨q, rest, hql⟩ : ∃ q rest, u.languages = q :: rest := by
    cases hcase : u.languages with
    | nil => exact absurd hcase hne
    | cons q rest => exact ⟨q, rest, rfl⟩
  have hrem : remove_language u n = (none, { u with languages := eraseA u.languages n }) := by
    unfold remove_language
    rw [hql]
  have hgone : lookupA (eraseA u.languages n) n = none :=
    lookupA_eraseA_self u.languages n hnodup
  have hmsg : translate_message (remove_language u n).2 key
      = Except.error LangError.keyError := by
    rw [hrem]
    simp [translate_message, get_message, hl, hgone]
  refine ⟨hall, ?_, ?_, by rw [hrem], hmsg, ?_, ?_⟩
  · rw [hall]
    simp
  · simp [remove_all_languages, get_current_language, hl]
  · rw [hmsg]
    simp
  · rw [hrem]
    simp [get_current_language, hl]

/-- Witness for C10: after loading only "en", pointing at it and removing
it, translation of "k" raises KeyError while the pointer still reads "en". -/
theorem c10_witness :
    get_message (remove_all_languages
        { languages := [("en", Json.obj [])], language := some "en" }) "k"
      = Except.error LangError.keyError ∧
    get_message (remove_all_languages
        { languages := [("en", Json.obj [])], language := some "en" }) "k"
      ≠ Except.error LangError.notLoaded ∧
    get_current_language (remove_all_languages
        { languages := [("en", Json.obj [])], language := some "en" })
      = some "en" ∧
    (remove_language
        { languages := [("en", Json.obj [])], language := some "en" } "en").1 = none ∧
    translate_message (remove_language
        { languages := [("en", Json.obj [])], language := some "en" } "en").2 "k"
      = Except.error LangError.keyError ∧
    translate_message (remove_language
        { languages := [("en", Json.obj [])], language := some "en" } "en").2 "k"
      ≠ Except.error LangError.notLoaded ∧
    get_current_language (remove_language
        { languages := [("en", Json.obj [])], language := some "en" } "en").2
      = some "en" :=
  c10_dangling_pointer_raises_keyerror
    { languages := [("en", Json.obj [])], language := some "en" }
    "en" "k" rfl (by simp) (by simp)
